import Mathlib

/-!
Shallow embedding of the MAX channel plugin (openclaw-max) inbound core:
the sticker cache (`src/sticker-cache.ts`), webhook path normalization and
request handling (`src/webhook.ts`), the polling-loop resumption marker,
edited-message id derivation, and the message normalizer / policy gate
(`processIncomingMessage` in the monitor module), together with theorems
settling the frozen claims about them.

JavaScript strings are modelled as Lean `String` (a wrapper over
`List Char`); JavaScript numbers occurring as chat/user ids and timestamps
are modelled as `Int` / `Nat`.  `undefined`/`null` fields are modelled as
`Option`.  JS truthiness of a string is `s ≠ ""`; the nullish-coalescing
operator `a ?? b` on strings is `(a <|> b).getD` (it skips only
`null`/`undefined`, not `""`).
-/

namespace OpenclawMax

/-! ### JS string primitives -/

/-- The whitespace set recognised by JS `String.prototype.trim` (the common
ASCII part plus NBSP, BOM and the line/paragraph separators). -/
def jsWhitespace (c : Char) : Bool :=
  c = ' ' || c = '\t' || c = '\n' || c = '\r' || c = '\x0b' || c = '\x0c' ||
  c = ' ' || c = '﻿' || c = ' ' || c = ' '

/-- JS `String.prototype.trim` on a character list: drop whitespace from both
ends. -/
def jsTrimList (l : List Char) : List Char :=
  ((l.dropWhile jsWhitespace).reverse.dropWhile jsWhitespace).reverse

/-- JS `String.prototype.trim`. -/
def jsTrim (s : String) : String := ⟨jsTrimList s.data⟩

/-- JS `Array.prototype.join(" ")` on a list of strings. -/
def joinSpace : List String → String
  | [] => ""
  | [s] => s
  | s :: rest => s ++ " " ++ joinSpace rest

/-- The decimal digit character for `d < 10`. -/
def digitChar (d : Nat) : Char := Char.ofNat (48 + d)

/-- Fuel-driven decimal rendering; `fuel` bounds the recursion depth (any
fuel above the digit count yields the full rendering). -/
def natToCharsAux : Nat → Nat → List Char
  | 0, _ => []
  | fuel + 1, n =>
    if n < 10 then [digitChar n]
    else natToCharsAux fuel (n / 10) ++ [digitChar (n % 10)]

/-- Decimal rendering of a natural number as a character list (the integer
case of JS `String(n)` / template interpolation). -/
def natToChars (n : Nat) : List Char := natToCharsAux (n + 1) n

/-- Decimal rendering of a natural number as a string. -/
def natToString (n : Nat) : String := ⟨natToChars n⟩

/-- JS `String(n)` for an integer. -/
def intToString (n : Int) : String :=
  if n < 0 then "-" ++ natToString n.natAbs else natToString n.toNat

/-- JS `String(x)` / `${x}` for a possibly-`undefined` integer: `undefined`
renders as the literal string `"undefined"`. -/
def jsStringOfOptInt : Option Int → String
  | some n => intToString n
  | none => "undefined"

/-! ### Sticker cache (`src/sticker-cache.ts`) -/

/-- The module-level mutable state of `sticker-cache.ts`: the per-chat map
`lastStickerByChat` and the process-wide `lastStickerGlobal`. -/
structure StickerCache where
  byChat : String → Option String
  globalCode : Option String

/-- The initial sticker-cache state (empty map, `null` global). -/
def StickerCache.init : StickerCache :=
  { byChat := fun _ => none, globalCode := none }

/-- Model of `rememberStickerCode(chatId, code)`: store `code` under the chat key and
also as the global last code.  The key is the already-stringified chat id
(`String(chatId)` in the source). -/
def rememberStickerCode (chatKey code : String) (st : StickerCache) : StickerCache :=
  { byChat := fun k => if k = chatKey then some code else st.byChat k
    globalCode := some code }

/-- Model of `getLastStickerCode(chatId?)`: the per-chat entry when present and truthy
(non-empty), else the global last code. -/
def getLastStickerCode (chatKey : Option String) (st : StickerCache) : Option String :=
  match chatKey with
  | some k =>
    match st.byChat k with
    | some code => if code ≠ "" then some code else st.globalCode
    | none => st.globalCode
  | none => st.globalCode

/-- Apply a sequence of `rememberStickerCode` calls (chat key, code) from the
initial state, in order. -/
def applyRemembers (ops : List (String × String)) : StickerCache :=
  ops.foldl (fun st p => rememberStickerCode p.1 p.2 st) StickerCache.init

/-! ### Webhook path normalization (`src/webhook.ts`) -/

/-- Source expression `trimmed.startsWith("/") ? trimmed : "/" + trimmed`. -/
def ensureLeadingSlash (t : String) : String :=
  if t.data.head? = some '/' then t else "/" ++ t

/-- Source expression `withSlash.length > 1 && withSlash.endsWith("/") ? withSlash.slice(0, -1)
: withSlash`. -/
def stripOneTrailingSlash (w : String) : String :=
  if w.data.length > 1 ∧ w.data.getLast? = some '/' then ⟨w.data.dropLast⟩ else w

/-- Model of `normalizeWebhookPath(raw)`: trim; empty becomes `"/"`; ensure a leading
slash; strip a single trailing slash unless the result is exactly `"/"`. -/
def normalizeWebhookPath (raw : String) : String :=
  let trimmed := jsTrim raw
  if trimmed = "" then "/"
  else stripOneTrailingSlash (ensureLeadingSlash trimmed)

/-- Model of `resolveMaxWebhookPath(webhookPath, webhookUrl)` restricted to the case
the claims exercise: `webhookUrl` absent, the input taken as the
`webhookPath` argument.  A trimmed-nonempty path is normalized; otherwise
the default `"/max"` is returned (the URL-derived branch of the source is
never reached when `webhookUrl` is absent). -/
def resolveMaxWebhookPath (webhookPath : String) : String :=
  let trimmedPath := jsTrim webhookPath
  if trimmedPath ≠ "" then normalizeWebhookPath trimmedPath
  else "/max"

/-! ### Webhook request handling (`handleMaxWebhookRequest` in `src/webhook.ts`)

The HTTP layer and the host SDK body reader are external; a request is
modelled by its parsed pathname, method, secret header and the outcome of
`readJsonBodyWithLimit` (ok value / PAYLOAD_TOO_LARGE / REQUEST_BODY_TIMEOUT /
other read error).  A registered target is modelled by its optional secret
and an oracle telling whether its `onUpdate` callback throws on this update;
a numeric tag distinguishes targets (the source compares them by object
identity). -/

/-- The shape of the parsed JSON body, as far as the handler inspects it
(`!raw || typeof raw !== "object" || Array.isArray(raw)`). -/
inductive JsonV
  | obj
  | arr
  | str (s : String)
  | num (n : Int)
  | bool (b : Bool)
  | null
deriving DecidableEq, Repr

/-- Outcome of `readJsonBodyWithLimit`. -/
inductive BodyRead
  | ok (v : JsonV)
  | tooLarge (errText : String)
  | timeout
  | readErr (errText : String)
deriving DecidableEq, Repr

/-- A registered webhook target (`MaxWebhookTarget`), restricted to the
fields the handler consults: the configured secret (absent or a string; the
empty string is falsy, hence "secretless") and whether `onUpdate` throws on
the incoming update. -/
structure WTarget where
  tid : Nat
  secret : Option String
  callbackThrows : Bool
deriving DecidableEq, Repr

/-- JS truthiness of `target.secret`. -/
def WTarget.secretTruthy (t : WTarget) : Bool :=
  match t.secret with
  | some s => s ≠ ""
  | none => false

/-- Source condition `target.secret && target.secret === webhookSecret`. -/
def WTarget.secretMatches (t : WTarget) (header : String) : Bool :=
  t.secretTruthy && t.secret = some header

/-- An inbound HTTP request as the handler sees it: pathname (already
URL-parsed), method, the `x-max-bot-api-secret` header (absent coerces to
`""` via `String(req.headers[...] ?? "")`), and the body-read outcome. -/
structure WReq where
  pathname : String
  method : String
  secretHeader : Option String
  body : BodyRead
deriving DecidableEq, Repr

/-- A response: status code, optional `Allow` header, body text, and the
target whose `onUpdate` was invoked (when dispatch was attempted). -/
structure HResp where
  status : Nat
  allow : Option String
  body : String
  handledBy : Option WTarget
deriving DecidableEq, Repr

/-- Placeholder for the host SDK's `requestBodyErrorToText("REQUEST_BODY_TIMEOUT")`
(external; its exact text is irrelevant to the claims). -/
def requestBodyTimeoutText : String := "Request body timed out"

/-- The target-matching loop of `handleMaxWebhookRequest`: first target whose
truthy secret equals the header wins (break); a secretless target overwrites
the running candidate without breaking, so absent a secret match the last
secretless target wins. -/
def loopMatch (header : String) : List WTarget → Option WTarget → Option WTarget
  | [], acc => acc
  | t :: ts, acc =>
    if t.secretMatches header then some t
    else if !t.secretTruthy then loopMatch header ts (some t)
    else loopMatch header ts acc

/-- Assoc-list lookup modelling `webhookTargets.get(path)`. -/
def lookupPath (registry : List (String × List WTarget)) (path : String) :
    Option (List WTarget) :=
  match registry with
  | [] => none
  | (k, ts) :: rest => if k = path then some ts else lookupPath rest path

/-- Model of `handleMaxWebhookRequest`: returns `none` when the request is not handled
(no target registered on the normalized path), otherwise the response. -/
def handleMaxWebhookRequest (registry : List (String × List WTarget)) (req : WReq) :
    Option HResp :=
  let path := normalizeWebhookPath req.pathname
  match lookupPath registry path with
  | none => none
  | some targets =>
    if targets.length = 0 then none
    else if req.method ≠ "POST" then
      some ⟨405, some "POST", "Method Not Allowed", none⟩
    else
      let webhookSecret := req.secretHeader.getD ""
      match req.body with
      | .tooLarge errText => some ⟨413, none, errText, none⟩
      | .timeout => some ⟨408, none, requestBodyTimeoutText, none⟩
      | .readErr errText => some ⟨400, none, errText, none⟩
      | .ok v =>
        if v ≠ JsonV.obj then some ⟨400, none, "invalid payload", none⟩
        else
          match loopMatch webhookSecret targets none with
          | none => some ⟨401, none, "Unauthorized", none⟩
          | some t =>
            if t.callbackThrows then some ⟨500, none, "Internal Server Error", some t⟩
            else some ⟨200, none, "\x7b\"ok\":true\x7d", some t⟩

/-! ### Polling-loop resumption marker (`startMaxPollingLoop`) -/

/-- The marker update of one successful poll: `if (resp.marker != null)
marker = resp.marker`. -/
def adoptMarker (current : Option Int) (respMarker : Option Int) : Option Int :=
  match respMarker with
  | some m => some m
  | none => current

/-- The marker held before poll `n`, starting unset (`let marker = null`),
where `r i` is the marker field of the `i`-th successful `getUpdates`
response. -/
def markerSeq (r : Nat → Option Int) : Nat → Option Int
  | 0 => none
  | n + 1 => adoptMarker (markerSeq r n) (r n)

/-- A well-behaved vendor API: markers returned across successive successful
polls never decrease. -/
def WellBehavedMarkers (r : Nat → Option Int) : Prop :=
  ∀ i j a b, i < j → r i = some a → r j = some b → a ≤ b

/-! ### Edited-message id derivation and reply-target stripping -/

/-- The literal `"_edited_"` as characters. -/
def editLit : List Char := ['_', 'e', 'd', 'i', 't', 'e', 'd', '_']

/-- Does the whole remaining string match `_edited_\d+$`: the literal
followed by one or more digits reaching the end? -/
def isEditSuffix (s : List Char) : Bool :=
  editLit.isPrefixOf s && (s.drop 8 ≠ [] && (s.drop 8).all Char.isDigit)

/-- Model of `mid.replace(/_edited_\d+$/, "")` on a character list: scan left to
right; at the first position where the whole remaining suffix matches,
drop it (the match necessarily extends to the end of the string). -/
def stripChars : List Char → List Char
  | [] => []
  | c :: rest => if isEditSuffix (c :: rest) then [] else c :: stripChars rest

/-- The reply-target computation of the deliver callback:
`messageId.replace(/_edited_\d+$/, "")`. -/
def stripEditSuffix (s : String) : String := ⟨stripChars s.data⟩

/-- The derived id assigned by `dispatchUpdate` for an edited message:
`` `${originalMid}_edited_${update.timestamp}` ``. -/
def deriveEditedMid (m : String) (timestamp : Nat) : String :=
  m ++ "_edited_" ++ natToString timestamp

/-! ### Mention detection (`new RegExp("@" + botUsername + "\\b", "i")`)

The pattern is the literal `@`, the username's characters taken literally
(usernames are word characters, so none is a regex metacharacter), and a
trailing word boundary, under the case-insensitive flag.  `test` scans every
start position. -/

/-- JS regex `\w`: `[A-Za-z0-9_]`. -/
def isWordChar (c : Char) : Bool :=
  ('a' ≤ c && c ≤ 'z') || ('A' ≤ c && c ≤ 'Z') || ('0' ≤ c && c ≤ '9') || c = '_'

/-- ASCII case-insensitive character comparison (the `i` flag on the
word-character alphabet). -/
def lowerEq (a b : Char) : Bool := a.toLower = b.toLower

/-- Consume `pat` caselessly from the front of `s`; on success return the
remaining text. -/
def consumeCaseless : List Char → List Char → Option (List Char)
  | [], s => some s
  | _ :: _, [] => none
  | p :: ps, c :: cs => if lowerEq p c then consumeCaseless ps cs else none

/-- Does `@u\b` match at the start of `s`?  After consuming `@` and the
username, the word boundary holds iff the word-ness of the last consumed
text character differs from that of the next one (end of input counts as
non-word). -/
def mentionHere (u : List Char) (s : List Char) : Bool :=
  match consumeCaseless ('@' :: u) s with
  | none => false
  | some _ =>
    let prevWord := match s.get? u.length with
      | some c => isWordChar c
      | none => false
    let nextWord := match s.get? (u.length + 1) with
      | some c => isWordChar c
      | none => false
    prevWord != nextWord

/-- Model of `mentionPattern.test(rawText)`: try every start position. -/
def mentionTest (u : List Char) : List Char → Bool
  | [] => mentionHere u []
  | c :: rest => mentionHere u (c :: rest) || mentionTest u rest

/-! ### Monitor data model (`MaxMessage` and friends, `src/api.ts` types) -/

/-- A MAX user, restricted to the fields the normalizer reads. -/
structure MaxUser where
  user_id : Option Int := none
  is_bot : Option Bool := none
  first_name : Option String := none
  last_name : Option String := none
  username : Option String := none
deriving DecidableEq, Repr

/-- Model of `message.link`: reply/forward context.  `lmid` collapses the source's
`link.message?.body?.mid` optional chain. -/
structure MaxLink where
  ltype : Option String := none
  lmid : Option String := none
  sender : Option MaxUser := none
deriving DecidableEq, Repr

/-- Model of `message.recipient`. -/
structure MaxRecipient where
  chat_id : Option Int := none
  chat_type : Option String := none
deriving DecidableEq, Repr

/-- An attachment payload, restricted to the fields the normalizer reads.
Latitude/longitude are kept in their rendered (template-interpolated)
form. -/
structure APayload where
  code : Option String := none
  url : Option String := none
  filename : Option String := none
  name : Option String := none
  vcf_info : Option String := none
  latitude : Option String := none
  longitude : Option String := none
deriving DecidableEq, Repr

/-- An attachment: `type`, optional payload, and the top-level fallback
fields the source also consults (`att.url`, `att.filename`,
`att.latitude`, `att.longitude`). -/
structure Attachment where
  atype : Option String := none
  payload : Option APayload := none
  topUrl : Option String := none
  topFilename : Option String := none
  topLat : Option String := none
  topLon : Option String := none
deriving DecidableEq, Repr

/-- Model of `message.body`. -/
structure MaxBody where
  mid : String
  text : Option String := none
  attachments : Option (List Attachment) := none
deriving DecidableEq, Repr

/-- An inbound MAX message, restricted to the fields `processIncomingMessage`
reads. -/
structure MaxMessage where
  sender : Option MaxUser := none
  recipient : MaxRecipient
  body : MaxBody
  link : Option MaxLink := none
  timestamp : Nat := 0
deriving DecidableEq, Repr

/-- Per-group config entry, restricted to the field the gate reads. -/
structure GroupCfg where
  requireMention : Option Bool := none
deriving DecidableEq, Repr

/-- The account-scoped config fields the normalizer reads
(`account.config.*`). -/
structure AccountCfg where
  dmPolicy : Option String := none
  allowFrom : List String := []
  groupPolicy : Option String := none
  groups : Option (List (String × GroupCfg)) := none
deriving DecidableEq, Repr

/-- A successfully downloaded-and-saved media item
(`fetchRemoteMedia` + `saveMediaBuffer`, external collaborators). -/
structure MediaSaved where
  path : String
  contentType : String := ""
deriving DecidableEq, Repr

/-- The environment of one `processIncomingMessage` call: the resolved
account config, the channel-defaults group policy, the bot identity, and
oracles for the external collaborators — the media download/save pipeline
(`none` = the fetch or save threw), the pairing allow-from store, the
pending pairing-request store with its code assignment
(modelled from the spec: `upsertPairingRequest` is idempotent, reporting
`created` exactly when the sender had no pending request). -/
structure ProcEnv where
  account : AccountCfg := {}
  defaultsGroupPolicy : Option String := none
  botUserId : Option Int := none
  botUsername : Option String := none
  storeAllowFrom : List String := []
  pendingPairing : List String := []
  pairingCode : String → String := fun _ => "PAIR"
  downloads : String → Option MediaSaved := fun _ => none

/-- The inbound context handed to the host dispatch pipeline
(`finalizeInboundContext`), restricted to the fields this embedding tracks;
host-formatted fields (`Body`, session keys) come from external
collaborators and are omitted. -/
structure InboundCtx where
  RawBody : String
  BodyForAgent : String
  CommandBody : String
  From : String
  To : String
  ChatType : String
  ConversationLabel : String
  SenderName : Option String
  SenderId : Option String
  WasMentioned : Option Bool
  MessageSid : String
  ReplyToId : Option String
  MediaPaths : List String
  MediaUrls : List String
  MediaTypes : List String
deriving DecidableEq, Repr

/-- Observable effects of one `processIncomingMessage` call, in order.
Session bookkeeping and logging (best-effort, claim-irrelevant) are not
recorded. -/
inductive Effect
  | rememberSticker (chatKey code : String)
  | pairingUpsert (id : String) (created : Bool)
  | pairingReply (sendTo idLine code : String)
  | typingAction
  | resolveRoute (peerKind peerId : String)
  | hostDispatch (ctx : InboundCtx)
deriving DecidableEq, Repr

/-- Bracketed attachment description `[...]`. -/
def bracket (m : String) : String := "[" ++ m ++ "]"

/-- Source condition `url.startsWith("http")`. -/
def startsWithHttp (url : String) : Bool := ['h', 't', 't', 'p'].isPrefixOf url.data

/-- The per-iteration output of the attachment loop: description pushes,
downloaded media paths/urls/content-types, and sticker-cache writes.  Loop
iterations are independent (they only append to these arrays). -/
structure Contrib where
  descs : List String := []
  paths : List String := []
  urls : List String := []
  types : List String := []
  remembers : List (String × String) := []
deriving DecidableEq, Repr

/-- Concatenation of two contributions (array pushes in order). -/
def Contrib.merge (a b : Contrib) : Contrib :=
  ⟨a.descs ++ b.descs, a.paths ++ b.paths, a.urls ++ b.urls,
   a.types ++ b.types, a.remembers ++ b.remembers⟩

/-- The sticker-code capture (monitor lines 313–321): push the code
description and, when the chat id is present, write the sticker cache. -/
def stickerCapture (chatId : Option Int) (stickerCode : String) : Contrib :=
  if stickerCode ≠ "" then
    { descs := [bracket ("Sticker: code=" ++ stickerCode)]
      remembers := match chatId with
        | some cid => [(intToString cid, stickerCode)]
        | none => [] }
  else {}

/-- A successful download+save (monitor lines 326–337). -/
def savedMediaContrib (saved : MediaSaved) : Contrib :=
  { paths := [saved.path], urls := [saved.path]
    types := if saved.contentType ≠ "" then [saved.contentType] else [] }

/-- The download-failure fallback (monitor lines 338–344): a bracketed
description, except for stickers whose code was already pushed. -/
def downloadFailContrib (attType url : String) : Contrib :=
  { descs := if attType ≠ "sticker" then [bracket (attType ++ ": " ++ url)] else [] }

/-- The no-URL fallback descriptions (monitor lines 345–356). -/
def noUrlContrib (attType : String) (att : Attachment) (payload : Option APayload) :
    Contrib :=
  if attType = "sticker" then
    let code := (payload.bind (·.code)).getD ""
    { descs := [bracket ("Sticker" ++ (if code ≠ "" then ": " ++ code else ""))] }
  else if attType = "file" then
    let filename := (att.topFilename <|> (payload.bind (·.filename))).getD ""
    { descs := [bracket ("File" ++ (if filename ≠ "" then ": " ++ filename else ""))] }
  else { descs := [bracket attType] }

/-- Non-downloadable attachment kinds (monitor lines 357–369). -/
def otherContrib (attType : String) (att : Attachment) (payload : Option APayload) :
    Contrib :=
  if attType = "share" then
    let url := ((payload.bind (·.url)) <|> att.topUrl).getD ""
    { descs := [bracket ("Share" ++ (if url ≠ "" then ": " ++ url else ""))] }
  else if attType = "location" then
    let lat := (att.topLat <|> (payload.bind (·.latitude))).getD ""
    let lon := (att.topLon <|> (payload.bind (·.longitude))).getD ""
    { descs := [bracket ("Location: " ++ lat ++ ", " ++ lon)] }
  else if attType = "contact" then
    let nm := ((payload.bind (·.name)) <|> (payload.bind (·.vcf_info))).getD ""
    { descs := [bracket ("Contact" ++ (if nm ≠ "" then ": " ++ nm else ""))] }
  else if attType ≠ "inline_keyboard" then { descs := [bracket attType] }
  else {}

/-- One iteration of the attachment loop of `processIncomingMessage`
(monitor module, lines 307–370). -/
def attContrib (env : ProcEnv) (chatId : Option Int) (att : Attachment) : Contrib :=
  let attType := att.atype.getD "unknown"
  let payload := att.payload
  if attType ∈ ["image", "sticker", "video", "audio", "file"] then
    let stickerCode := if attType = "sticker" then (payload.bind (·.code)).getD "" else ""
    let url := ((payload.bind (·.url)) <|> att.topUrl).getD ""
    if url ≠ "" ∧ startsWithHttp url then
      match env.downloads url with
      | some saved => (stickerCapture chatId stickerCode).merge (savedMediaContrib saved)
      | none => (stickerCapture chatId stickerCode).merge (downloadFailContrib attType url)
    else (stickerCapture chatId stickerCode).merge (noUrlContrib attType att payload)
  else otherContrib attType att payload

/-- The whole attachment loop: fold of per-attachment contributions. -/
def attScan (env : ProcEnv) (chatId : Option Int) (atts : List Attachment) : Contrib :=
  atts.foldl (fun acc a => acc.merge (attContrib env chatId a)) {}

/-- Source condition `chatType === "chat" || chatType === "channel"`. -/
def isGroupMsg (msg : MaxMessage) : Bool :=
  msg.recipient.chat_type = some "chat" || msg.recipient.chat_type = some "channel"

/-- Model of `formatSenderName` (monitor helpers). -/
def formatSenderName (user : Option MaxUser) : String :=
  match user with
  | none => "Unknown"
  | some u =>
    let parts := [u.first_name.getD ""] ++
      (match u.last_name with
        | some l => if l ≠ "" then [l] else []
        | none => [])
    let joined := joinSpace parts
    if joined ≠ "" then joined
    else
      match u.username with
      | some un => if un ≠ "" then un else "user_" ++ jsStringOfOptInt u.user_id
      | none => "user_" ++ jsStringOfOptInt u.user_id

/-- The reply-as-mention check (monitor lines 391–397): a reply whose sender
is a bot with the bot's own user id. -/
def replyToBotAsMention (msg : MaxMessage) (botUserId : Option Int) : Bool :=
  match msg.link with
  | some l =>
    if l.ltype = some "reply" then
      match l.sender with
      | some rs => (rs.is_bot.getD false) && decide (rs.user_id = botUserId)
      | none => false
    else false
  | none => false

/-- Mention detection (monitor lines 383–398): computed only for group chats
with a truthy configured bot username; `@botname` regex test on the raw
text, else reply-to-bot counts as a mention. -/
def computeWasMentioned (env : ProcEnv) (msg : MaxMessage) (rawText : String) :
    Option Bool :=
  if isGroupMsg msg && (env.botUsername.getD "" ≠ "") then
    let u := env.botUsername.getD ""
    let m1 := mentionTest u.data rawText.data
    let m2 := if !m1 then replyToBotAsMention msg env.botUserId else false
    some (m1 || m2)
  else none

/-- The DM security gate (monitor lines 401–443).  `some effs` means the
function returns early having produced effects `effs`; `none` means the
message is allowed through. -/
def dmGateEffects (env : ProcEnv) (senderStr chatSendTo : String) :
    Option (List Effect) :=
  let dmPolicy := env.account.dmPolicy.getD "pairing"
  if dmPolicy = "disabled" then some []
  else if dmPolicy ≠ "open" then
    let effectiveAllowFrom := env.account.allowFrom ++ env.storeAllowFrom
    if senderStr ∈ effectiveAllowFrom ∨ "*" ∈ effectiveAllowFrom then none
    else if dmPolicy = "pairing" then
      let code := env.pairingCode senderStr
      let created := senderStr ∉ env.pendingPairing
      some ([Effect.pairingUpsert senderStr created] ++
        (if created then
          [Effect.pairingReply chatSendTo ("Your MAX user id: " ++ senderStr) code]
        else []))
    else some []
  else none

/-- Source expression `account.config.groupPolicy ?? config.channels?.defaults?.groupPolicy ??
"allowlist"`. -/
def resolvedGroupPolicy (env : ProcEnv) : String :=
  (env.account.groupPolicy <|> env.defaultsGroupPolicy).getD "allowlist"

/-- Assoc-list lookup modelling indexing into the `groups` config object. -/
def lookupKey : List (String × GroupCfg) → String → Option GroupCfg
  | [], _ => none
  | (k', v) :: rest, k => if k' = k then some v else lookupKey rest k

/-- Source condition `chatIdStr in groups || "*" in groups`. -/
def groupAllowlisted (env : ProcEnv) (chatIdStr : String) : Bool :=
  let groups := env.account.groups.getD []
  (lookupKey groups chatIdStr).isSome || (lookupKey groups "*").isSome

/-- Source expression `(groups?.[chatIdStr] ?? groups?.["*"])?.requireMention ?? true`. -/
def resolvedRequireMention (env : ProcEnv) (chatIdStr : String) : Bool :=
  let groups := env.account.groups.getD []
  (((lookupKey groups chatIdStr) <|> (lookupKey groups "*")).bind
    (·.requireMention)).getD true

/-- The group policy gate (monitor lines 446–474): `true` means the message
passes on to envelope construction. -/
def groupGatePasses (env : ProcEnv) (chatIdStr : String) (wasMentioned : Option Bool) :
    Bool :=
  let groupPolicy := resolvedGroupPolicy env
  if groupPolicy = "disabled" then false
  else if groupPolicy = "allowlist" && !(groupAllowlisted env chatIdStr) then false
  else if resolvedRequireMention env chatIdStr && !(wasMentioned.getD false) then false
  else true

/-- Envelope construction and handoff (monitor lines 477–601): resolve the
agent route, build the inbound context, fire the typing indicator, dispatch
through the host pipeline. -/
def dispatchEffects (env : ProcEnv) (msg : MaxMessage)
    (rawText attachmentText : String) (acc : Contrib) (wasMentioned : Option Bool) :
    List Effect :=
  let senderId := msg.sender.bind (·.user_id)
  let isGroup := isGroupMsg msg
  let chatId := msg.recipient.chat_id
  let chatIdStr := jsStringOfOptInt (chatId <|> senderId)
  let senderName := formatSenderName msg.sender
  let fromLabel := if isGroup then "chat:" ++ chatIdStr
    else if senderName ≠ "" then senderName else "user:" ++ jsStringOfOptInt senderId
  let trimmed := jsTrim rawText
  let bodyForAgent :=
    if attachmentText ≠ "" then
      if trimmed ≠ "" then trimmed ++ "\n" ++ attachmentText else attachmentText
    else rawText
  let replyToId := match msg.link with
    | some l => if l.ltype = some "reply" then l.lmid else none
    | none => none
  let ctx : InboundCtx :=
    { RawBody := rawText
      BodyForAgent := bodyForAgent
      CommandBody := if rawText ≠ "" then rawText else attachmentText
      From := "max:" ++ jsStringOfOptInt senderId
      To := "max:" ++ chatIdStr
      ChatType := if isGroup then "group" else "direct"
      ConversationLabel := fromLabel
      SenderName := if senderName ≠ "" then some senderName else none
      SenderId := senderId.map intToString
      WasMentioned := if isGroup then wasMentioned else none
      MessageSid := msg.body.mid
      ReplyToId := replyToId
      MediaPaths := acc.paths
      MediaUrls := acc.urls
      MediaTypes := acc.types }
  [Effect.resolveRoute (if isGroup then "group" else "direct") chatIdStr] ++
  (if chatId.isSome then [Effect.typingAction] else []) ++
  [Effect.hostDispatch ctx]

/-- Everything after the empty-message check: mention detection, the DM or
group gate, then envelope construction and dispatch. -/
def afterEmptyCheck (env : ProcEnv) (msg : MaxMessage)
    (rawText attachmentText : String) (acc : Contrib) : List Effect :=
  let wasMentioned := computeWasMentioned env msg rawText
  let senderId := msg.sender.bind (·.user_id)
  let chatId := msg.recipient.chat_id
  if !(isGroupMsg msg) then
    match dmGateEffects env (jsStringOfOptInt senderId)
        (jsStringOfOptInt (chatId <|> senderId)) with
    | some effs => effs
    | none => dispatchEffects env msg rawText attachmentText acc wasMentioned
  else
    if groupGatePasses env (jsStringOfOptInt chatId) wasMentioned then
      dispatchEffects env msg rawText attachmentText acc wasMentioned
    else []

/-- The observable result of one `processIncomingMessage` call: the computed
effective text, the successfully downloaded media paths, and the recorded
effects in order. -/
structure ProcResult where
  effectiveText : String
  mediaPaths : List String
  effects : List Effect
deriving Repr

/-- Source line `const rawText = message.body.text ?? ""`. -/
def procRawText (msg : MaxMessage) : String := msg.body.text.getD ""

/-- The attachment loop applied to this message's attachments. -/
def procAcc (env : ProcEnv) (msg : MaxMessage) : Contrib :=
  attScan env msg.recipient.chat_id (msg.body.attachments.getD [])

/-- Source expression `attachmentDescriptions.join(" ")`. -/
def procAttachmentText (env : ProcEnv) (msg : MaxMessage) : String :=
  joinSpace (procAcc env msg).descs

/-- Source line `const effectiveText = rawText.trim() || attachmentText`. -/
def procEffectiveText (env : ProcEnv) (msg : MaxMessage) : String :=
  if jsTrim (procRawText msg) ≠ "" then jsTrim (procRawText msg)
  else procAttachmentText env msg

/-- The sticker-cache writes performed during the attachment loop. -/
def procBaseEffects (env : ProcEnv) (msg : MaxMessage) : List Effect :=
  (procAcc env msg).remembers.map fun p => Effect.rememberSticker p.1 p.2

/-- Model of `processIncomingMessage`: attachment reduction, the empty-message drop,
then the policy gates and handoff. -/
def processIncomingMessage (env : ProcEnv) (msg : MaxMessage) : ProcResult :=
  if procEffectiveText env msg = "" ∧ (procAcc env msg).paths = [] then
    ⟨procEffectiveText env msg, (procAcc env msg).paths, procBaseEffects env msg⟩
  else
    ⟨procEffectiveText env msg, (procAcc env msg).paths,
      procBaseEffects env msg ++
        afterEmptyCheck env msg (procRawText msg) (procAttachmentText env msg)
          (procAcc env msg)⟩

/-- Recognisers for effect kinds. -/
def Effect.isHostDispatchE : Effect → Bool
  | .hostDispatch _ => true
  | _ => false

def Effect.isRouteE : Effect → Bool
  | .resolveRoute _ _ => true
  | _ => false

def Effect.isPairingReplyE : Effect → Bool
  | .pairingReply _ _ _ => true
  | _ => false

def Effect.isUpsertE : Effect → Bool
  | .pairingUpsert _ _ => true
  | _ => false

/-- Did the call hand the message to the host pipeline? -/
def hasHostDispatch (r : ProcResult) : Bool :=
  r.effects.any Effect.isHostDispatchE

/-! ### Theorems: sticker cache (C10) -/

/-- The last code written for chat key `k` in a sequence of remember calls
(searching from the most recent). -/
def lastWrite (k : String) : List (String × String) → Option String
  | [] => none
  | (k', v) :: rest =>
    match lastWrite k rest with
    | some w => some w
    | none => if k' = k then some v else none

/-- The most recently remembered code across all chats. -/
def lastCode : List (String × String) → Option String
  | [] => none
  | (_, v) :: rest =>
    match lastCode rest with
    | some w => some w
    | none => some v

lemma foldRemember_byChat (ops : List (String × String)) (st : StickerCache)
    (k : String) :
    (ops.foldl (fun s p => rememberStickerCode p.1 p.2 s) st).byChat k
      = match lastWrite k ops with
        | some w => some w
        | none => st.byChat k := by
  induction ops generalizing st with
  | nil => simp [lastWrite]
  | cons hd tl ih =>
    simp only [List.foldl_cons, lastWrite, ih]
    cases h : lastWrite k tl with
    | some w => simp
    | none =>
      by_cases hk : hd.1 = k
      · simp [rememberStickerCode, hk]
      · simp [rememberStickerCode, hk]
        intro h'
        exact absurd h'.symm hk

lemma foldRemember_global (ops : List (String × String)) (st : StickerCache) :
    (ops.foldl (fun s p => rememberStickerCode p.1 p.2 s) st).globalCode
      = match lastCode ops with
        | some w => some w
        | none => st.globalCode := by
  induction ops generalizing st with
  | nil => simp [lastCode]
  | cons hd tl ih =>
    simp only [List.foldl_cons, lastCode, ih]
    cases h : lastCode tl with
    | some w => simp
    | none => simp [rememberStickerCode]

lemma lastCode_eq_none_iff (ops : List (String × String)) :
    lastCode ops = none ↔ ops = [] := by
  cases ops with
  | nil => simp [lastCode]
  | cons hd tl =>
    simp only [lastCode]
    cases lastCode tl <;> simp

lemma lastWrite_some_ne_nil {k : String} {ops : List (String × String)}
    {c : String} (h : lastWrite k ops = some c) : ops ≠ [] := by
  cases ops with
  | nil => simp [lastWrite] at h
  | cons hd tl => simp

/-- C10: `rememberStickerCode` writes both the per-chat entry and the global
last code; `getLastStickerCode` returns the per-chat entry when present and
non-empty, else the most recently remembered code from any chat, and is
`null` exactly when nothing was ever remembered — the last code leaks across
chats. -/
theorem getLastStickerCode_spec (ops : List (String × String)) (chat : String) :
    (getLastStickerCode (some chat) (applyRemembers ops)
      = match lastWrite chat ops with
        | some c => if c ≠ "" then some c else lastCode ops
        | none => lastCode ops)
    ∧ (getLastStickerCode (some chat) (applyRemembers ops) = none ↔ ops = []) := by
  have hby := foldRemember_byChat ops StickerCache.init chat
  have hgl := foldRemember_global ops StickerCache.init
  constructor
  · simp only [getLastStickerCode, applyRemembers]
    rw [hby, hgl]
    cases hw : lastWrite chat ops with
    | some c =>
      by_cases hc : c = ""
      · subst hc
        cases hg : lastCode ops <;> simp [StickerCache.init]
      · simp [hc]
    | none => cases hg : lastCode ops <;> simp [StickerCache.init]
  · simp only [getLastStickerCode, applyRemembers]
    rw [hby, hgl]
    cases hw : lastWrite chat ops with
    | some c =>
      have hne := lastWrite_some_ne_nil hw
      by_cases hc : c = ""
      · subst hc
        cases hg : lastCode ops with
        | some w => simp [StickerCache.init, hne]
        | none => exact absurd ((lastCode_eq_none_iff ops).mp hg) hne
      · simp [hc, hne]
    | none =>
      cases hg : lastCode ops with
      | some w =>
        have : ops ≠ [] := by
          intro h
          subst h
          simp [lastCode] at hg
        simp [StickerCache.init, this]
      | none => simp [StickerCache.init, (lastCode_eq_none_iff ops).mp hg]

/-! ### Theorems: polling marker monotonicity (C7) -/

lemma markerSeq_some_src {r : Nat → Option Int} :
    ∀ {n a}, markerSeq r n = some a → ∃ i, i < n ∧ r i = some a := by
  intro n
  induction n with
  | zero => intro a h; simp [markerSeq] at h
  | succ n ih =>
    intro a h
    rw [markerSeq] at h
    cases hr : r n with
    | some m =>
      rw [hr] at h
      simp only [adoptMarker] at h
      exact ⟨n, Nat.lt_succ_self n, by rw [hr, ← h]⟩
    | none =>
      rw [hr] at h
      simp only [adoptMarker] at h
      obtain ⟨i, hi, hri⟩ := ih h
      exact ⟨i, Nat.lt_succ_of_lt hi, hri⟩

/-- C7: the resumption marker starts unset and is changed only by adopting
the marker of a successful response; for a well-behaved vendor API the
adopted marker never decreases across two successive successful polls. -/
theorem pollingMarker_monotone (r : Nat → Option Int) (hwb : WellBehavedMarkers r) :
    markerSeq r 0 = none ∧
      ∀ n a b, markerSeq r n = some a → markerSeq r (n + 1) = some b → a ≤ b := by
  refine ⟨rfl, ?_⟩
  intro n a b ha hb
  rw [markerSeq] at hb
  cases hr : r n with
  | some m =>
    rw [hr] at hb
    simp only [adoptMarker, Option.some.injEq] at hb
    obtain ⟨i, hi, hri⟩ := markerSeq_some_src ha
    have := hwb i n a m hi hri hr
    omega
  | none =>
    rw [hr] at hb
    simp only [adoptMarker] at hb
    rw [ha, Option.some.injEq] at hb
    omega

/-- Concrete well-behaved response sequence for the C7 witness. -/
def cMarkerResp : Nat → Option Int :=
  fun n => if n = 0 then some 1 else if n = 1 then some 2 else none

lemma cMarkerResp_wb : WellBehavedMarkers cMarkerResp := by
  intro i j a b hij ha hb
  unfold cMarkerResp at ha hb
  by_cases hi0 : i = 0 <;> by_cases hj0 : j = 0 <;>
    by_cases hi1 : i = 1 <;> by_cases hj1 : j = 1 <;>
      simp_all <;> omega

/-- Witness for C7 at a concrete response sequence. -/
theorem pollingMarker_monotone_witness : markerSeq cMarkerResp 0 = none :=
  (pollingMarker_monotone cMarkerResp cMarkerResp_wb).1

/-! ### Theorems: edited-message id round-trip (C5) -/

lemma data_append (a b : String) : (a ++ b).data = a.data ++ b.data := by
  cases a
  cases b
  rfl

lemma digitChar_isDigit {d : Nat} (h : d < 10) : (digitChar d).isDigit = true := by
  interval_cases d <;> decide

lemma natToCharsAux_spec :
    ∀ (fuel n : Nat), n < fuel →
      natToCharsAux fuel n ≠ [] ∧ (natToCharsAux fuel n).all Char.isDigit = true := by
  intro fuel
  induction fuel with
  | zero => intro n hn; omega
  | succ fuel ih =>
    intro n hn
    rw [natToCharsAux]
    split
    · next h => simp [digitChar_isDigit h]
    · next h =>
      have hlt : n / 10 < n := Nat.div_lt_self (by omega) (by omega)
      have hrec := ih (n / 10) (by omega)
      have hmod : n % 10 < 10 := Nat.mod_lt _ (by omega)
      simp [List.all_append, hrec.2, digitChar_isDigit hmod]

lemma natToChars_spec (n : Nat) :
    natToChars n ≠ [] ∧ (natToChars n).all Char.isDigit = true :=
  natToCharsAux_spec (n + 1) n (Nat.lt_succ_self n)

lemma mem_drop_edit (t : List Char) :
    ∀ (m : List Char) (j : Nat), j ≤ m.length + 7 →
      '_' ∈ (m ++ (editLit ++ t)).drop j := by
  intro m
  induction m with
  | nil =>
    intro j hj
    simp only [List.nil_append, List.length_nil, Nat.zero_add] at hj ⊢
    rw [List.drop_append_of_le_length (by simp [editLit]; omega)]
    refine List.mem_append_left _ ?_
    interval_cases j <;> decide
  | cons c m ih =>
    intro j hj
    cases j with
    | zero =>
      simp only [List.drop_zero, List.cons_append, List.mem_cons, List.mem_append]
      have h1 : '_' ∈ editLit := by decide
      tauto
    | succ j' =>
      rw [show (c :: m) ++ (editLit ++ t) = c :: (m ++ (editLit ++ t)) from rfl,
        List.drop_succ_cons]
      exact ih j' (by simp at hj; omega)

lemma isEditSuffix_cons_append (c : Char) (m t : List Char) :
    isEditSuffix (c :: (m ++ (editLit ++ t))) = false := by
  have hmem : '_' ∈ (m ++ (editLit ++ t)).drop 7 :=
    mem_drop_edit t m 7 (by omega)
  have hall : ((m ++ (editLit ++ t)).drop 7).all Char.isDigit = false := by
    cases hA : ((m ++ (editLit ++ t)).drop 7).all Char.isDigit with
    | false => rfl
    | true =>
      exact absurd (List.all_eq_true.mp hA '_' hmem) (by decide)
  unfold isEditSuffix
  rw [show (c :: (m ++ (editLit ++ t))).drop 8 = (m ++ (editLit ++ t)).drop 7 from rfl]
  rw [hall]
  simp

lemma isPrefixOf_append_self : ∀ (l r : List Char), l.isPrefixOf (l ++ r) = true := by
  intro l r
  induction l with
  | nil => simp [List.isPrefixOf]
  | cons c l ih => simp [List.isPrefixOf, ih]

lemma stripChars_append (t : List Char) (htne : t ≠ [])
    (htd : t.all Char.isDigit = true) :
    ∀ m : List Char, stripChars (m ++ (editLit ++ t)) = m := by
  intro m
  induction m with
  | nil =>
    have hfull : isEditSuffix (editLit ++ t) = true := by
      have h1 : editLit.isPrefixOf (editLit ++ t) = true := isPrefixOf_append_self _ _
      have h2 : (editLit ++ t).drop 8 = t := rfl
      simp [isEditSuffix, h1, h2, htne, htd]
    rw [List.nil_append,
      show editLit ++ t = '_' :: (['e','d','i','t','e','d','_'] ++ t) from rfl,
      stripChars]
    rw [show ('_' :: (['e','d','i','t','e','d','_'] ++ t)) = editLit ++ t from rfl, hfull]
    simp
  | cons c m ih =>
    rw [show (c :: m) ++ (editLit ++ t) = c :: (m ++ (editLit ++ t)) from rfl]
    rw [stripChars, isEditSuffix_cons_append]
    simp [ih]

/-- C5: the derived edited-message id is the original id followed by the
`_edited_` marker and a non-empty run of digits, is distinct from the
original id, and the deliver callback's suffix-stripping recovers exactly
the original id. -/
theorem editedMid_roundtrip (m : String) (t : Nat) :
    (∃ d : String, deriveEditedMid m t = m ++ "_edited_" ++ d ∧ d ≠ "" ∧
      d.data.all Char.isDigit = true)
    ∧ deriveEditedMid m t ≠ m
    ∧ stripEditSuffix (deriveEditedMid m t) = m := by
  obtain ⟨hne, hdig⟩ := natToChars_spec t
  have hdata : (deriveEditedMid m t).data = m.data ++ (editLit ++ natToChars t) := by
    simp only [deriveEditedMid, data_append]
    rw [List.append_assoc]
    rfl
  refine ⟨⟨natToString t, rfl, ?_, hdig⟩, ?_, ?_⟩
  · intro h
    exact hne (congrArg String.data h)
  · intro h
    have hlen := congrArg (fun s => s.data.length) h
    simp only [hdata, List.length_append] at hlen
    have h8 : editLit.length = 8 := rfl
    have hpos : 0 < (natToChars t).length := List.length_pos.mpr hne
    omega
  · have hstrip : stripChars (deriveEditedMid m t).data = m.data := by
      rw [hdata]
      exact stripChars_append (natToChars t) hne hdig m.data
    unfold stripEditSuffix
    rw [hstrip]

/-! ### Theorems: webhook path normalization (C8) -/

/-- C8 counterexample: `resolveMaxWebhookPath` strips only one trailing
slash per application, so it is not idempotent — `"a//"` normalizes to
`"/a/"`, and a second application yields `"/a"`. -/
theorem resolveMaxWebhookPath_not_idempotent :
    resolveMaxWebhookPath (resolveMaxWebhookPath "a//") ≠ resolveMaxWebhookPath "a//" := by
  decide

lemma dropWhile_eq_self {p : Char → Bool} {l : List Char}
    (h : ∀ c, l.head? = some c → p c = false) : l.dropWhile p = l := by
  cases l with
  | nil => rfl
  | cons a l => simp [List.dropWhile_cons, h a rfl]

lemma jsTrim_eq_self {q : String}
    (hh : ∀ c, q.data.head? = some c → jsWhitespace c = false)
    (hl : ∀ c, q.data.getLast? = some c → jsWhitespace c = false) :
    jsTrim q = q := by
  have h1 : q.data.dropWhile jsWhitespace = q.data := dropWhile_eq_self hh
  have h2 : q.data.reverse.dropWhile jsWhitespace = q.data.reverse := by
    refine dropWhile_eq_self ?_
    intro c hc
    rw [List.head?_reverse] at hc
    exact hl c hc
  unfold jsTrim jsTrimList
  rw [h1, h2, List.reverse_reverse]

lemma ensureLeadingSlash_head (t : String) :
    (ensureLeadingSlash t).data.head? = some '/' := by
  unfold ensureLeadingSlash
  split
  · assumption
  · rw [data_append]
    rfl

lemma head?_dropLast {l : List Char} (h : l.length > 1) :
    l.dropLast.head? = l.head? := by
  match l, h with
  | a :: b :: r, _ => rfl

lemma stripOneTrailingSlash_head {w : String}
    (h : w.data.head? = some '/') :
    (stripOneTrailingSlash w).data.head? = some '/' := by
  unfold stripOneTrailingSlash
  split
  · next hc => rw [head?_dropLast hc.1, h]
  · exact h

lemma resolveMaxWebhookPath_head (p : String) :
    (resolveMaxWebhookPath p).data.head? = some '/' := by
  by_cases h : jsTrim p = ""
  · simp only [resolveMaxWebhookPath, h, ne_eq, not_true_eq_false, if_false]
    decide
  · by_cases h2 : jsTrim (jsTrim p) = ""
    · simp [resolveMaxWebhookPath, normalizeWebhookPath, h, h2]
    · have hs := stripOneTrailingSlash_head (ensureLeadingSlash_head (jsTrim (jsTrim p)))
      simp [resolveMaxWebhookPath, normalizeWebhookPath, h, h2, hs]

/-- C8 amended: one application of `resolveMaxWebhookPath` can leave a
residual trailing slash (from `"…//"`) or residual trailing whitespace
(from `"… /"`); whenever it does not — the result is the root `"/"` or ends
in neither a slash nor whitespace — a second application returns the result
unchanged. -/
theorem resolveMaxWebhookPath_idempotent_of_clean (p : String)
    (h1 : resolveMaxWebhookPath p = "/" ∨
      (resolveMaxWebhookPath p).data.getLast? ≠ some '/')
    (h2 : ((resolveMaxWebhookPath p).data.getLast?.all fun c => !jsWhitespace c) = true) :
    resolveMaxWebhookPath (resolveMaxWebhookPath p) = resolveMaxWebhookPath p := by
  set q := resolveMaxWebhookPath p with hq
  have hhead : q.data.head? = some '/' := resolveMaxWebhookPath_head p
  have hhw : ∀ c, q.data.head? = some c → jsWhitespace c = false := by
    intro c hc
    rw [hhead] at hc
    cases hc
    rfl
  have hlw : ∀ c, q.data.getLast? = some c → jsWhitespace c = false := by
    intro c hc
    rw [hc] at h2
    simpa using h2
  have htrim : jsTrim q = q := jsTrim_eq_self hhw hlw
  have hqne : q ≠ "" := by
    intro h
    rw [h] at hhead
    simp at hhead
  have hens : ensureLeadingSlash q = q := by
    unfold ensureLeadingSlash
    rw [if_pos hhead]
  have hstrip : stripOneTrailingSlash q = q := by
    unfold stripOneTrailingSlash
    rw [if_neg]
    rintro ⟨hlen, hlast⟩
    rcases h1 with hroot | hne
    · rw [hroot] at hlen
      simp at hlen
    · exact hne hlast
  unfold resolveMaxWebhookPath normalizeWebhookPath
  rw [htrim, if_pos hqne, htrim, if_neg hqne, hens, hstrip]

/-- Witness for the amended C8 at the concrete input `"/foo/"`. -/
theorem resolveMaxWebhookPath_idempotent_witness :
    resolveMaxWebhookPath (resolveMaxWebhookPath "/foo/") = resolveMaxWebhookPath "/foo/" :=
  resolveMaxWebhookPath_idempotent_of_clean "/foo/" (by decide) (by decide)

/-! ### Theorems: webhook request handling (C6, C9) -/

lemma getLast?_cons_spec {α : Type} (a : α) (l : List α) :
    (a :: l).getLast? = match l.getLast? with
      | some x => some x
      | none => some a := by
  induction l generalizing a with
  | nil => rfl
  | cons b l _ih =>
    obtain ⟨y, hy⟩ : ∃ y, (b :: l).getLast? = some y :=
      Option.isSome_iff_exists.mp (List.getLast?_isSome.mpr (by simp))
    rw [List.getLast?_cons_cons, hy]

lemma loopMatch_spec (header : String) :
    ∀ (ts : List WTarget) (acc : Option WTarget),
      loopMatch header ts acc =
        match ts.find? (fun t => t.secretMatches header) with
        | some t => some t
        | none =>
          match (ts.filter fun t => !t.secretTruthy).getLast? with
          | some t => some t
          | none => acc := by
  intro ts
  induction ts with
  | nil => intro acc; rfl
  | cons t ts ih =>
    intro acc
    rw [loopMatch]
    cases hm : t.secretMatches header with
    | true => simp [List.find?_cons, hm]
    | false =>
      cases hs : t.secretTruthy with
      | true =>
        simp only [hm, hs, Bool.not_true, Bool.false_eq_true, if_false, ih]
        simp [List.find?_cons, hm, List.filter_cons, hs]
      | false =>
        simp only [hm, hs, Bool.not_false, if_true, Bool.false_eq_true, if_false, ih]
        simp only [List.find?_cons, hm, List.filter_cons, hs, Bool.not_false, if_true]
        cases hf : ts.find? (fun t => t.secretMatches header) with
        | some u => simp
        | none =>
          simp only []
          rw [getLast?_cons_spec]
          cases hg : (ts.filter fun t => !t.secretTruthy).getLast? <;> simp

/-- C6: response statuses of `handleMaxWebhookRequest` on a path with at
least one registered target: 405 (with `Allow: POST`) for non-POST, 413 for
an oversized body, 408 for a body-read timeout, 400 for any other read error
or a non-object body, 401 when no target matches the secret header, 500 when
the matched target's callback throws, and 200 with `{"ok":true}` on
success. -/
theorem handleMaxWebhookRequest_responses
    (registry : List (String × List WTarget)) (req : WReq) (ts : List WTarget)
    (hts : lookupPath registry (normalizeWebhookPath req.pathname) = some ts)
    (hne : ts ≠ []) :
    (req.method ≠ "POST" →
      handleMaxWebhookRequest registry req = some ⟨405, some "POST", "Method Not Allowed", none⟩)
    ∧ (∀ e, req.method = "POST" → req.body = .tooLarge e →
      handleMaxWebhookRequest registry req = some ⟨413, none, e, none⟩)
    ∧ (req.method = "POST" → req.body = .timeout →
      handleMaxWebhookRequest registry req = some ⟨408, none, requestBodyTimeoutText, none⟩)
    ∧ (∀ e, req.method = "POST" → req.body = .readErr e →
      handleMaxWebhookRequest registry req = some ⟨400, none, e, none⟩)
    ∧ (∀ v, req.method = "POST" → req.body = .ok v → v ≠ .obj →
      handleMaxWebhookRequest registry req = some ⟨400, none, "invalid payload", none⟩)
    ∧ (req.method = "POST" → req.body = .ok .obj →
      loopMatch (req.secretHeader.getD "") ts none = none →
      handleMaxWebhookRequest registry req = some ⟨401, none, "Unauthorized", none⟩)
    ∧ (∀ t, req.method = "POST" → req.body = .ok .obj →
      loopMatch (req.secretHeader.getD "") ts none = some t → t.callbackThrows = true →
      handleMaxWebhookRequest registry req = some ⟨500, none, "Internal Server Error", some t⟩)
    ∧ (∀ t, req.method = "POST" → req.body = .ok .obj →
      loopMatch (req.secretHeader.getD "") ts none = some t → t.callbackThrows = false →
      handleMaxWebhookRequest registry req =
        some ⟨200, none, "\x7b\"ok\":true\x7d", some t⟩) := by
  have hlen : ¬ ts.length = 0 := by
    intro h
    exact hne (List.length_eq_zero.mp h)
  refine ⟨?_, ?_, ?_, ?_, ?_, ?_, ?_, ?_⟩
  · intro hm
    simp [handleMaxWebhookRequest, hts, hlen, hm]
  · intro e hm hb
    simp [handleMaxWebhookRequest, hts, hlen, hm, hb]
  · intro hm hb
    simp [handleMaxWebhookRequest, hts, hlen, hm, hb]
  · intro e hm hb
    simp [handleMaxWebhookRequest, hts, hlen, hm, hb]
  · intro v hm hb hv
    simp [handleMaxWebhookRequest, hts, hlen, hm, hb, hv]
  · intro hm hb hmatch
    simp [handleMaxWebhookRequest, hts, hlen, hm, hb, hmatch]
  · intro t hm hb hmatch hthrow
    simp [handleMaxWebhookRequest, hts, hlen, hm, hb, hmatch, hthrow]
  · intro t hm hb hmatch hthrow
    simp [handleMaxWebhookRequest, hts, hlen, hm, hb, hmatch, hthrow]

/-- Concrete registry for the webhook witnesses. -/
def cRegistry : List (String × List WTarget) :=
  [("/hook", [⟨0, none, false⟩])]

/-- Witness for C6 at a concrete non-POST request. -/
theorem handleMaxWebhookRequest_responses_witness :
    handleMaxWebhookRequest cRegistry ⟨"/hook", "GET", none, .ok .obj⟩
      = some ⟨405, some "POST", "Method Not Allowed", none⟩ :=
  (handleMaxWebhookRequest_responses cRegistry ⟨"/hook", "GET", none, .ok .obj⟩
    [⟨0, none, false⟩] (by decide) (by decide)).1 (by decide)

/-- C9: on a POST with a well-formed object body, a 401 occurs exactly when
every target on the path has a truthy (non-empty) configured secret and none
equals the request's secret header; if any secretless target is registered,
the request is dispatched regardless of its secret — to the first
secret-matching target if one exists, else to the last secretless target in
registration order. -/
theorem handleMaxWebhookRequest_secret_fallthrough
    (registry : List (String × List WTarget)) (req : WReq) (ts : List WTarget)
    (hts : lookupPath registry (normalizeWebhookPath req.pathname) = some ts)
    (hne : ts ≠ []) (hm : req.method = "POST") (hb : req.body = .ok .obj) :
    (((handleMaxWebhookRequest registry req).map (fun r => r.status) = some 401) ↔
      ∀ t ∈ ts, t.secretTruthy = true ∧ t.secret ≠ some (req.secretHeader.getD ""))
    ∧ (loopMatch (req.secretHeader.getD "") ts none =
        match ts.find? (fun t => t.secretMatches (req.secretHeader.getD "")) with
        | some t => some t
        | none => (ts.filter fun t => !t.secretTruthy).getLast?)
    ∧ ((∃ t ∈ ts, t.secretTruthy = false) →
      ∃ t, loopMatch (req.secretHeader.getD "") ts none = some t ∧
        handleMaxWebhookRequest registry req =
          some (if t.callbackThrows then ⟨500, none, "Internal Server Error", some t⟩
            else ⟨200, none, "\x7b\"ok\":true\x7d", some t⟩)) := by
  have hlen : ¬ ts.length = 0 := by
    intro h
    exact hne (List.length_eq_zero.mp h)
  have hspec := loopMatch_spec (req.secretHeader.getD "") ts none
  have hspec' : loopMatch (req.secretHeader.getD "") ts none =
      match ts.find? (fun t => t.secretMatches (req.secretHeader.getD "")) with
      | some t => some t
      | none => (ts.filter fun t => !t.secretTruthy).getLast? := by
    rw [hspec]
    cases ts.find? (fun t => t.secretMatches (req.secretHeader.getD "")) with
    | some t => rfl
    | none =>
      cases (ts.filter fun t => !t.secretTruthy).getLast? <;> rfl
  refine ⟨?_, hspec', ?_⟩
  · constructor
    · intro h401
      cases hlm : loopMatch (req.secretHeader.getD "") ts none with
      | some t =>
        simp [handleMaxWebhookRequest, hts, hlen, hm, hb, hlm] at h401
        cases ht : t.callbackThrows <;> rw [ht] at h401 <;> simp at h401
      | none =>
        rw [hspec'] at hlm
        intro t htmem
        cases hf : ts.find? (fun t => t.secretMatches (req.secretHeader.getD "")) with
        | some u => rw [hf] at hlm; simp at hlm
        | none =>
          rw [hf] at hlm
          have hnomatch := List.find?_eq_none.mp hf t htmem
          have hfilter : (ts.filter fun t => !t.secretTruthy) = [] := by
            cases hfl : (ts.filter fun t => !t.secretTruthy) with
            | nil => rfl
            | cons a l =>
              rw [hfl, getLast?_cons_spec] at hlm
              cases hx : l.getLast? <;> rw [hx] at hlm <;> simp at hlm
          have hnotmem : ¬ (!t.secretTruthy) = true := by
            intro hT
            have hmemf : t ∈ ts.filter (fun t => !t.secretTruthy) :=
              List.mem_filter.mpr ⟨htmem, hT⟩
            rw [hfilter] at hmemf
            simp at hmemf
          have htruthy : t.secretTruthy = true := by
            cases h : t.secretTruthy
            · exact absurd (by simp [h]) hnotmem
            · rfl
          refine ⟨htruthy, ?_⟩
          intro hsec
          apply hnomatch
          simp [WTarget.secretMatches, htruthy, hsec]
    · intro hall
      have hnone : loopMatch (req.secretHeader.getD "") ts none = none := by
        rw [hspec']
        have hf : ts.find? (fun t => t.secretMatches (req.secretHeader.getD "")) = none := by
          apply List.find?_eq_none.mpr
          intro t htmem
          obtain ⟨htruthy, hsec⟩ := hall t htmem
          simp [WTarget.secretMatches, htruthy, hsec]
        have hfl : (ts.filter fun t => !t.secretTruthy) = [] := by
          apply List.filter_eq_nil.mpr
          intro t htmem
          simp [(hall t htmem).1]
        rw [hf, hfl]
        rfl
      simp [handleMaxWebhookRequest, hts, hlen, hm, hb, hnone]
  · intro ⟨t0, ht0mem, ht0⟩
    have hfl : (ts.filter fun t => !t.secretTruthy) ≠ [] := by
      intro h
      have hmemf : t0 ∈ ts.filter (fun t => !t.secretTruthy) :=
        List.mem_filter.mpr ⟨ht0mem, by simp [ht0]⟩
      rw [h] at hmemf
      simp at hmemf
    have hsome : ∃ t, loopMatch (req.secretHeader.getD "") ts none = some t := by
      rw [hspec']
      cases hf : ts.find? (fun t => t.secretMatches (req.secretHeader.getD "")) with
      | some u => exact ⟨u, rfl⟩
      | none =>
        cases hfl2 : (ts.filter fun t => !t.secretTruthy) with
        | nil => exact absurd hfl2 hfl
        | cons a l =>
          rw [getLast?_cons_spec]
          cases hg : l.getLast? with
          | some x => exact ⟨x, rfl⟩
          | none => exact ⟨a, rfl⟩
    obtain ⟨t, ht⟩ := hsome
    refine ⟨t, ht, ?_⟩
    cases hthrow : t.callbackThrows <;>
      simp [handleMaxWebhookRequest, hts, hlen, hm, hb, ht, hthrow]

/-- Witness for C9 at a concrete request and registry. -/
theorem handleMaxWebhookRequest_secret_fallthrough_witness :
    ((handleMaxWebhookRequest cRegistry ⟨"/hook", "POST", some "wrong", .ok .obj⟩).map
        (fun r => r.status) = some 401) ↔
      ∀ t ∈ ([⟨0, none, false⟩] : List WTarget), t.secretTruthy = true ∧
        t.secret ≠ some "wrong" :=
  (handleMaxWebhookRequest_secret_fallthrough cRegistry
    ⟨"/hook", "POST", some "wrong", .ok .obj⟩ [⟨0, none, false⟩]
    (by decide) (by decide) rfl rfl).1

/-! ### Theorems: the normalizer / policy gate (C1–C4) -/

lemma Contrib.merge_descs (a b : Contrib) : (a.merge b).descs = a.descs ++ b.descs := rfl

lemma Contrib.merge_paths (a b : Contrib) : (a.merge b).paths = a.paths ++ b.paths := rfl

lemma Contrib.merge_remembers (a b : Contrib) :
    (a.merge b).remembers = a.remembers ++ b.remembers := rfl

lemma Contrib.merge_assoc (a b c : Contrib) :
    (a.merge b).merge c = a.merge (b.merge c) := by
  cases a
  cases b
  cases c
  simp [Contrib.merge]

lemma Contrib.merge_nilC (a : Contrib) : a.merge ⟨[], [], [], [], []⟩ = a := by
  cases a
  simp [Contrib.merge]

lemma Contrib.nilC_merge (a : Contrib) : Contrib.merge ⟨[], [], [], [], []⟩ a = a := by
  cases a
  simp [Contrib.merge]

lemma attScan_fold_eq (env : ProcEnv) (c : Option Int) :
    ∀ (atts : List Attachment) (acc : Contrib),
      atts.foldl (fun acc a => acc.merge (attContrib env c a)) acc =
        acc.merge
          ⟨atts.flatMap fun a => (attContrib env c a).descs,
           atts.flatMap fun a => (attContrib env c a).paths,
           atts.flatMap fun a => (attContrib env c a).urls,
           atts.flatMap fun a => (attContrib env c a).types,
           atts.flatMap fun a => (attContrib env c a).remembers⟩ := by
  intro atts
  induction atts with
  | nil =>
    intro acc
    simp only [List.foldl_nil, List.flatMap_nil]
    exact (Contrib.merge_nilC acc).symm
  | cons a atts ih =>
    intro acc
    rw [List.foldl_cons, ih, Contrib.merge_assoc]
    congr 1

/-- The attachment loop, expressed per attachment. -/
lemma attScan_eq (env : ProcEnv) (c : Option Int) (atts : List Attachment) :
    attScan env c atts =
      ⟨atts.flatMap fun a => (attContrib env c a).descs,
       atts.flatMap fun a => (attContrib env c a).paths,
       atts.flatMap fun a => (attContrib env c a).urls,
       atts.flatMap fun a => (attContrib env c a).types,
       atts.flatMap fun a => (attContrib env c a).remembers⟩ := by
  unfold attScan
  rw [attScan_fold_eq]
  exact Contrib.nilC_merge _

lemma bracket_data (m : String) : (bracket m).data = '[' :: (m.data ++ [']']) := by
  rw [bracket, data_append, data_append]
  rfl

lemma bracket_ne_empty (m : String) : bracket m ≠ "" := by
  intro h
  have h2 := congrArg String.data h
  rw [bracket_data] at h2
  simp at h2

lemma stickerCapture_descs_bracket (c : Option Int) (code : String) :
    ∀ s ∈ (stickerCapture c code).descs, ∃ m, s = bracket m := by
  intro s hs
  unfold stickerCapture at hs
  split_ifs at hs
  · simp at hs
    exact ⟨_, hs⟩
  · simp at hs

lemma savedMediaContrib_descs (saved : MediaSaved) : (savedMediaContrib saved).descs = [] :=
  rfl

lemma downloadFailContrib_descs_bracket (attType url : String) :
    ∀ s ∈ (downloadFailContrib attType url).descs, ∃ m, s = bracket m := by
  intro s hs
  unfold downloadFailContrib at hs
  split_ifs at hs
  · simp at hs
    exact ⟨_, hs⟩
  · simp at hs

lemma noUrlContrib_descs_bracket (attType : String) (att : Attachment)
    (payload : Option APayload) :
    ∀ s ∈ (noUrlContrib attType att payload).descs, ∃ m, s = bracket m := by
  intro s hs
  unfold noUrlContrib at hs
  split_ifs at hs <;> simp at hs <;> exact ⟨_, hs⟩

lemma otherContrib_descs_bracket (attType : String) (att : Attachment)
    (payload : Option APayload) :
    ∀ s ∈ (otherContrib attType att payload).descs, ∃ m, s = bracket m := by
  intro s hs
  unfold otherContrib at hs
  split_ifs at hs <;> simp at hs
  · exact ⟨_, hs⟩
  · exact ⟨_, hs⟩
  · exact ⟨_, hs⟩
  · exact ⟨_, hs⟩

lemma savedMediaContrib_descs_bracket (saved : MediaSaved) :
    ∀ s ∈ (savedMediaContrib saved).descs, ∃ m, s = bracket m := by
  intro s hs
  rw [savedMediaContrib_descs] at hs
  simp at hs

lemma merge_descs_bracket {X Y : Contrib}
    (hX : ∀ s ∈ X.descs, ∃ m, s = bracket m)
    (hY : ∀ s ∈ Y.descs, ∃ m, s = bracket m) :
    ∀ s ∈ (X.merge Y).descs, ∃ m, s = bracket m := by
  intro s hs
  rw [Contrib.merge_descs] at hs
  rcases List.mem_append.mp hs with h | h
  exacts [hX s h, hY s h]

lemma attContrib_descs_bracket (env : ProcEnv) (c : Option Int) (a : Attachment) :
    ∀ s ∈ (attContrib env c a).descs, ∃ m, s = bracket m := by
  intro s hs
  simp only [attContrib] at hs
  have hmatch : ∀ code,
      s ∈ ((match env.downloads (((a.payload.bind fun x => x.url) <|> a.topUrl).getD "")
          with
        | some saved => (stickerCapture c code).merge (savedMediaContrib saved)
        | none =>
          (stickerCapture c code).merge
            (downloadFailContrib (a.atype.getD "unknown")
              (((a.payload.bind fun x => x.url) <|> a.topUrl).getD ""))).descs) →
      ∃ m, s = bracket m := by
    intro code hmem
    cases hdl : env.downloads (((a.payload.bind fun x => x.url) <|> a.topUrl).getD "") with
    | some saved =>
      rw [hdl] at hmem
      exact merge_descs_bracket (stickerCapture_descs_bracket _ _)
        (savedMediaContrib_descs_bracket _) s hmem
    | none =>
      rw [hdl] at hmem
      exact merge_descs_bracket (stickerCapture_descs_bracket _ _)
        (downloadFailContrib_descs_bracket _ _) s hmem
  split_ifs at hs
  all_goals
    first
    | exact hmatch _ hs
    | exact merge_descs_bracket (stickerCapture_descs_bracket _ _)
        (noUrlContrib_descs_bracket _ _ _) s hs
    | exact otherContrib_descs_bracket _ _ _ s hs

lemma stickerCapture_descs_nil (c : Option Int) (code : String)
    (h : (stickerCapture c code).descs = []) : (stickerCapture c code).remembers = [] := by
  unfold stickerCapture at h ⊢
  split_ifs at h ⊢ with hc
  all_goals first | rfl | simp at h

lemma savedMediaContrib_remembers (saved : MediaSaved) :
    (savedMediaContrib saved).remembers = [] := rfl

lemma downloadFailContrib_remembers (attType url : String) :
    (downloadFailContrib attType url).remembers = [] := rfl

lemma noUrlContrib_remembers (attType : String) (att : Attachment)
    (payload : Option APayload) : (noUrlContrib attType att payload).remembers = [] := by
  unfold noUrlContrib
  split_ifs <;> rfl

lemma otherContrib_remembers (attType : String) (att : Attachment)
    (payload : Option APayload) : (otherContrib attType att payload).remembers = [] := by
  unfold otherContrib
  split_ifs <;> rfl

lemma merge_remembers_nil {c : Option Int} {code : String} {Y : Contrib}
    (hY : Y.remembers = [])
    (h : ((stickerCapture c code).merge Y).descs = []) :
    ((stickerCapture c code).merge Y).remembers = [] := by
  rw [Contrib.merge_descs] at h
  rw [Contrib.merge_remembers, hY, List.append_nil]
  exact stickerCapture_descs_nil _ _ (List.append_eq_nil.mp h).1

lemma attContrib_descs_nil_remembers (env : ProcEnv) (c : Option Int) (a : Attachment)
    (h : (attContrib env c a).descs = []) : (attContrib env c a).remembers = [] := by
  simp only [attContrib] at h ⊢
  have hmatch : ∀ code,
      ((match env.downloads (((a.payload.bind fun x => x.url) <|> a.topUrl).getD "") with
        | some saved => (stickerCapture c code).merge (savedMediaContrib saved)
        | none =>
          (stickerCapture c code).merge
            (downloadFailContrib (a.atype.getD "unknown")
              (((a.payload.bind fun x => x.url) <|> a.topUrl).getD ""))).descs = []) →
      ((match env.downloads (((a.payload.bind fun x => x.url) <|> a.topUrl).getD "") with
        | some saved => (stickerCapture c code).merge (savedMediaContrib saved)
        | none =>
          (stickerCapture c code).merge
            (downloadFailContrib (a.atype.getD "unknown")
              (((a.payload.bind fun x => x.url) <|> a.topUrl).getD ""))).remembers = []) := by
    intro code hd
    cases hdl : env.downloads (((a.payload.bind fun x => x.url) <|> a.topUrl).getD "") with
    | some saved =>
      rw [hdl] at hd
      exact merge_remembers_nil (savedMediaContrib_remembers _) hd
    | none =>
      rw [hdl] at hd
      exact merge_remembers_nil (downloadFailContrib_remembers _ _) hd
  split_ifs at h ⊢
  all_goals
    first
    | exact hmatch _ h
    | exact merge_remembers_nil (noUrlContrib_remembers _ _ _) h
    | exact otherContrib_remembers _ _ _

lemma joinSpace_eq_empty {l : List String} (h : joinSpace l = "")
    (hb : ∀ s ∈ l, s ≠ "") : l = [] := by
  match l with
  | [] => rfl
  | [s] => exact absurd h (hb s (by simp))
  | s :: s2 :: rest =>
    exfalso
    have h2 : (s ++ " " ++ joinSpace (s2 :: rest)) = "" := h
    have h3 := congrArg (fun x => x.data.length) h2
    simp only [data_append, List.length_append] at h3
    have hsp : ([' '] : List Char).length = 1 := rfl
    have h0 : ([] : List Char).length = 0 := rfl
    omega

lemma processIncomingMessage_effText (env : ProcEnv) (msg : MaxMessage) :
    (processIncomingMessage env msg).effectiveText = procEffectiveText env msg := by
  unfold processIncomingMessage
  split <;> rfl

lemma processIncomingMessage_mediaPaths (env : ProcEnv) (msg : MaxMessage) :
    (processIncomingMessage env msg).mediaPaths = (procAcc env msg).paths := by
  unfold processIncomingMessage
  split <;> rfl

/-- C1: a message whose effective text is empty and whose attachments
produced no downloaded media path is dropped with no recorded effect at
all — in particular no pairing action, no agent-route resolution and no
host dispatch. -/
theorem emptyMessage_drop (env : ProcEnv) (msg : MaxMessage)
    (he : (processIncomingMessage env msg).effectiveText = "")
    (hp : (processIncomingMessage env msg).mediaPaths = []) :
    (processIncomingMessage env msg).effects = [] := by
  rw [processIncomingMessage_effText] at he
  rw [processIncomingMessage_mediaPaths] at hp
  have hres : (processIncomingMessage env msg).effects = procBaseEffects env msg := by
    unfold processIncomingMessage
    rw [if_pos ⟨he, hp⟩]
  rw [hres]
  have hatt : procAttachmentText env msg = "" := by
    by_cases ht : jsTrim (procRawText msg) = ""
    · unfold procEffectiveText at he
      rwa [if_neg (fun hn => hn ht)] at he
    · unfold procEffectiveText at he
      rw [if_pos ht] at he
      exact absurd he ht
  have hdescs : (procAcc env msg).descs = [] := by
    refine joinSpace_eq_empty hatt ?_
    intro s hs
    unfold procAcc at hs
    rw [attScan_eq] at hs
    obtain ⟨a, _, hsa⟩ := List.mem_flatMap.mp hs
    obtain ⟨m, rfl⟩ := attContrib_descs_bracket env _ a s hsa
    exact bracket_ne_empty m
  have hrem : (procAcc env msg).remembers = [] := by
    unfold procAcc at hdescs ⊢
    rw [attScan_eq] at hdescs ⊢
    simp only [] at hdescs ⊢
    rw [List.flatMap_eq_nil_iff] at hdescs ⊢
    intro a ha
    exact attContrib_descs_nil_remembers env _ a (hdescs a ha)
  unfold procBaseEffects
  rw [hrem]
  rfl

/-- Concrete environment and message for the C1 witness. -/
def cEnvEmpty : ProcEnv := {}

def cMsgEmpty : MaxMessage :=
  { recipient := { chat_id := some 10, chat_type := some "dialog" }
    body := { mid := "m-empty" } }

/-- Witness for C1 at a concrete empty message. -/
theorem emptyMessage_drop_witness :
    (processIncomingMessage cEnvEmpty cMsgEmpty).effects = [] :=
  emptyMessage_drop cEnvEmpty cMsgEmpty (by decide) (by decide)

lemma any_map_remember (p : Effect → Bool)
    (hp : ∀ k c, p (Effect.rememberSticker k c) = false) :
    ∀ l : List (String × String),
      (l.map fun q => Effect.rememberSticker q.1 q.2).any p = false := by
  intro l
  induction l with
  | nil => rfl
  | cons x l ih => simp [List.any_cons, hp, ih]

lemma filter_map_remember (p : Effect → Bool)
    (hp : ∀ k c, p (Effect.rememberSticker k c) = false) :
    ∀ l : List (String × String),
      (l.map fun q => Effect.rememberSticker q.1 q.2).filter p = [] := by
  intro l
  induction l with
  | nil => rfl
  | cons x l ih => simp [List.filter_cons, hp, ih]

lemma dispatchEffects_any_dispatch (env : ProcEnv) (msg : MaxMessage)
    (rawText attachmentText : String) (acc : Contrib) (wm : Option Bool) :
    (dispatchEffects env msg rawText attachmentText acc wm).any
      Effect.isHostDispatchE = true := by
  simp [dispatchEffects, List.any_append, Effect.isHostDispatchE]

lemma computeWasMentioned_group (env : ProcEnv) (msg : MaxMessage) (rawText u : String)
    (hgrp : isGroupMsg msg = true) (hu : env.botUsername = some u) (hune : u ≠ "") :
    computeWasMentioned env msg rawText =
      some (mentionTest u.data rawText.data ||
        (if !(mentionTest u.data rawText.data) then
          replyToBotAsMention msg env.botUserId
        else false)) := by
  simp [computeWasMentioned, hgrp, hu, hune]

lemma groupGatePasses_eq (env : ProcEnv) (k : String) (w : Bool)
    (hpol : resolvedGroupPolicy env ≠ "disabled")
    (hallow : resolvedGroupPolicy env = "allowlist" → groupAllowlisted env k = true)
    (hreq : resolvedRequireMention env k = true) :
    groupGatePasses env k (some w) = w := by
  by_cases hal : resolvedGroupPolicy env = "allowlist"
  · cases w <;> simp [groupGatePasses, hpol, hal, hallow hal, hreq]
  · cases w <;> simp [groupGatePasses, hpol, hal, hreq]

/-- C2: for a group message that passes the group policy gate, when the
resolved per-group `requireMention` is not explicitly `false`, the message is
handed to the host pipeline exactly when the raw text matches the
case-insensitive word-boundary `@botUsername` pattern or the message is a
reply to a bot message authored by the bot itself. -/
theorem groupMention_gate (env : ProcEnv) (msg : MaxMessage) (u : String)
    (hgrp : isGroupMsg msg = true)
    (hu : env.botUsername = some u) (hune : u ≠ "")
    (hword : u.data.all isWordChar = true)
    (hne : (processIncomingMessage env msg).effectiveText ≠ "" ∨
      (processIncomingMessage env msg).mediaPaths ≠ [])
    (hpol : resolvedGroupPolicy env ≠ "disabled")
    (hallow : resolvedGroupPolicy env = "allowlist" →
      groupAllowlisted env (jsStringOfOptInt msg.recipient.chat_id) = true)
    (hreq : resolvedRequireMention env (jsStringOfOptInt msg.recipient.chat_id) = true) :
    hasHostDispatch (processIncomingMessage env msg) =
      (mentionTest u.data (procRawText msg).data ||
        replyToBotAsMention msg env.botUserId) := by
  rw [processIncomingMessage_effText, processIncomingMessage_mediaPaths] at hne
  have hne' : ¬(procEffectiveText env msg = "" ∧ (procAcc env msg).paths = []) := by
    rintro ⟨h1, h2⟩
    rcases hne with h | h
    · exact h h1
    · exact h h2
  have h1 : (processIncomingMessage env msg).effects =
      procBaseEffects env msg ++
        afterEmptyCheck env msg (procRawText msg) (procAttachmentText env msg)
          (procAcc env msg) := by
    unfold processIncomingMessage
    rw [if_neg hne']
  have h2 : afterEmptyCheck env msg (procRawText msg) (procAttachmentText env msg)
      (procAcc env msg) =
      (if groupGatePasses env (jsStringOfOptInt msg.recipient.chat_id)
          (computeWasMentioned env msg (procRawText msg)) then
        dispatchEffects env msg (procRawText msg) (procAttachmentText env msg)
          (procAcc env msg) (computeWasMentioned env msg (procRawText msg))
      else []) := by
    simp [afterEmptyCheck, hgrp]
  rw [computeWasMentioned_group env msg (procRawText msg) u hgrp hu hune] at h2
  rw [groupGatePasses_eq env _ _ hpol hallow hreq] at h2
  unfold hasHostDispatch
  have hbase : (procBaseEffects env msg).any Effect.isHostDispatchE = false := by
    unfold procBaseEffects
    exact any_map_remember _ (fun _ _ => rfl) _
  rw [h1, List.any_append, hbase, h2]
  cases hb : mentionTest u.data (procRawText msg).data with
  | true => simp [hb, dispatchEffects_any_dispatch]
  | false =>
    cases hrb : replyToBotAsMention msg env.botUserId with
    | true => simp [hb, hrb, dispatchEffects_any_dispatch]
    | false => simp [hb, hrb]

/-- Concrete environment and message for the C2 witness. -/
def cEnvGroup : ProcEnv :=
  { account := { groupPolicy := some "open" }
    botUserId := some 99
    botUsername := some "mybot" }

def cMsgGroup : MaxMessage :=
  { sender := some { user_id := some 1 }
    recipient := { chat_id := some 5, chat_type := some "chat" }
    body := { mid := "g1", text := some "@mybot hello" } }

/-- Witness for C2 at a concrete mentioned group message. -/
theorem groupMention_gate_witness :
    hasHostDispatch (processIncomingMessage cEnvGroup cMsgGroup) =
      (mentionTest "mybot".data (procRawText cMsgGroup).data ||
        replyToBotAsMention cMsgGroup cEnvGroup.botUserId) :=
  groupMention_gate cEnvGroup cMsgGroup "mybot" (by decide) rfl (by decide) (by decide)
    (by left; decide) (by decide) (fun h => absurd h (by decide)) (by decide)

lemma dmGateEffects_pairing_notAllowed (env : ProcEnv) (senderStr chatSendTo : String)
    (hpol : env.account.dmPolicy.getD "pairing" = "pairing")
    (hs : senderStr ∉ env.account.allowFrom ++ env.storeAllowFrom)
    (hw : "*" ∉ env.account.allowFrom ++ env.storeAllowFrom) :
    dmGateEffects env senderStr chatSendTo =
      some ([Effect.pairingUpsert senderStr (decide (senderStr ∉ env.pendingPairing))] ++
        (if senderStr ∉ env.pendingPairing then
          [Effect.pairingReply chatSendTo ("Your MAX user id: " ++ senderStr)
            (env.pairingCode senderStr)]
        else [])) := by
  simp [dmGateEffects, hpol, hs, hw]

/-- C3: under `dmPolicy=pairing`, a DM from a sender neither allow-listed nor
in the pairing store (and no wildcard) produces, on first contact, exactly
one pairing upsert (`created=true`) and exactly one pairing reply carrying
the sender's platform id and the pairing code, sent directly; a repeat
before approval (`created=false`) produces the upsert but no reply; in
both cases no agent route is resolved and the host pipeline is not
invoked. -/
theorem dmPairing_flow (env : ProcEnv) (msg : MaxMessage)
    (hdm : isGroupMsg msg = false)
    (hpol : env.account.dmPolicy.getD "pairing" = "pairing")
    (hsender : jsStringOfOptInt (msg.sender.bind fun x => x.user_id) ∉
      env.account.allowFrom ++ env.storeAllowFrom)
    (hwild : "*" ∉ env.account.allowFrom ++ env.storeAllowFrom)
    (hne : (processIncomingMessage env msg).effectiveText ≠ "" ∨
      (processIncomingMessage env msg).mediaPaths ≠ []) :
    (jsStringOfOptInt (msg.sender.bind fun x => x.user_id) ∉ env.pendingPairing →
      (processIncomingMessage env msg).effects.filter Effect.isPairingReplyE =
        [Effect.pairingReply
          (jsStringOfOptInt (msg.recipient.chat_id <|> msg.sender.bind fun x => x.user_id))
          ("Your MAX user id: " ++ jsStringOfOptInt (msg.sender.bind fun x => x.user_id))
          (env.pairingCode (jsStringOfOptInt (msg.sender.bind fun x => x.user_id)))] ∧
      (processIncomingMessage env msg).effects.filter Effect.isUpsertE =
        [Effect.pairingUpsert (jsStringOfOptInt (msg.sender.bind fun x => x.user_id)) true] ∧
      (processIncomingMessage env msg).effects.filter Effect.isHostDispatchE = [] ∧
      (processIncomingMessage env msg).effects.filter Effect.isRouteE = [])
    ∧ (jsStringOfOptInt (msg.sender.bind fun x => x.user_id) ∈ env.pendingPairing →
      (processIncomingMessage env msg).effects.filter Effect.isPairingReplyE = [] ∧
      (processIncomingMessage env msg).effects.filter Effect.isUpsertE =
        [Effect.pairingUpsert (jsStringOfOptInt (msg.sender.bind fun x => x.user_id)) false] ∧
      (processIncomingMessage env msg).effects.filter Effect.isHostDispatchE = [] ∧
      (processIncomingMessage env msg).effects.filter Effect.isRouteE = []) := by
  rw [processIncomingMessage_effText, processIncomingMessage_mediaPaths] at hne
  have hne' : ¬(procEffectiveText env msg = "" ∧ (procAcc env msg).paths = []) := by
    rintro ⟨h1, h2⟩
    rcases hne with h | h
    · exact h h1
    · exact h h2
  have h1 : (processIncomingMessage env msg).effects =
      procBaseEffects env msg ++
        afterEmptyCheck env msg (procRawText msg) (procAttachmentText env msg)
          (procAcc env msg) := by
    unfold processIncomingMessage
    rw [if_neg hne']
  have h2 : afterEmptyCheck env msg (procRawText msg) (procAttachmentText env msg)
      (procAcc env msg) =
      [Effect.pairingUpsert (jsStringOfOptInt (msg.sender.bind fun x => x.user_id))
        (decide (jsStringOfOptInt (msg.sender.bind fun x => x.user_id) ∉
          env.pendingPairing))] ++
      (if jsStringOfOptInt (msg.sender.bind fun x => x.user_id) ∉ env.pendingPairing then
        [Effect.pairingReply
          (jsStringOfOptInt (msg.recipient.chat_id <|> msg.sender.bind fun x => x.user_id))
          ("Your MAX user id: " ++ jsStringOfOptInt (msg.sender.bind fun x => x.user_id))
          (env.pairingCode (jsStringOfOptInt (msg.sender.bind fun x => x.user_id)))]
      else []) := by
    simp only [afterEmptyCheck, hdm, Bool.not_false, if_true]
    rw [dmGateEffects_pairing_notAllowed env _ _ hpol hsender hwild]
  have hbaseR : (procBaseEffects env msg).filter Effect.isPairingReplyE = [] := by
    unfold procBaseEffects
    exact filter_map_remember _ (fun _ _ => rfl) _
  have hbaseU : (procBaseEffects env msg).filter Effect.isUpsertE = [] := by
    unfold procBaseEffects
    exact filter_map_remember _ (fun _ _ => rfl) _
  have hbaseD : (procBaseEffects env msg).filter Effect.isHostDispatchE = [] := by
    unfold procBaseEffects
    exact filter_map_remember _ (fun _ _ => rfl) _
  have hbaseRt : (procBaseEffects env msg).filter Effect.isRouteE = [] := by
    unfold procBaseEffects
    exact filter_map_remember _ (fun _ _ => rfl) _
  constructor
  · intro hfirst
    rw [h1, h2, if_pos hfirst]
    rw [decide_eq_true hfirst]
    refine ⟨?_, ?_, ?_, ?_⟩ <;>
      simp [List.filter_append, hbaseR, hbaseU, hbaseD, hbaseRt, List.filter_cons,
        Effect.isPairingReplyE, Effect.isUpsertE, Effect.isHostDispatchE, Effect.isRouteE]
  · intro hrepeat
    rw [h1, h2, if_neg (fun hn => hn hrepeat)]
    have hdec : decide (jsStringOfOptInt (msg.sender.bind fun x => x.user_id) ∉
        env.pendingPairing) = false := by
      simp [hrepeat]
    rw [hdec]
    refine ⟨?_, ?_, ?_, ?_⟩ <;>
      simp [List.filter_append, hbaseR, hbaseU, hbaseD, hbaseRt, List.filter_cons,
        Effect.isPairingReplyE, Effect.isUpsertE, Effect.isHostDispatchE, Effect.isRouteE]

/-- Concrete environment and message for the C3 witness. -/
def cEnvPairing : ProcEnv := {}

def cMsgDm : MaxMessage :=
  { sender := some { user_id := some 7 }
    recipient := { chat_id := some 7, chat_type := some "dialog" }
    body := { mid := "d1", text := some "hi" } }

/-- Witness for C3 at a concrete first-contact DM. -/
theorem dmPairing_flow_witness :
    (7 : Int) = 7 ∧
      ((processIncomingMessage cEnvPairing cMsgDm).effects.filter
        Effect.isPairingReplyE =
        [Effect.pairingReply "7" "Your MAX user id: 7" "PAIR"] ∧
      (processIncomingMessage cEnvPairing cMsgDm).effects.filter Effect.isUpsertE =
        [Effect.pairingUpsert "7" true] ∧
      (processIncomingMessage cEnvPairing cMsgDm).effects.filter
        Effect.isHostDispatchE = [] ∧
      (processIncomingMessage cEnvPairing cMsgDm).effects.filter Effect.isRouteE = []) :=
  ⟨rfl,
    (dmPairing_flow cEnvPairing cMsgDm (by decide) rfl (by decide) (by decide)
      (by left; decide)).1 (by decide)⟩

/-- The C4 scenario: an open DM carrying exactly one sticker attachment with
code `abc123` and no URL, and no message text. -/
def cEnvSticker : ProcEnv := { account := { dmPolicy := some "open" } }

def cMsgSticker : MaxMessage :=
  { recipient := { chat_id := some 10, chat_type := some "dialog" }
    body := { mid := "m1"
              attachments := some [{ atype := some "sticker"
                                     payload := some { code := some "abc123" } }] } }

/-- C4 counterexample: the effective text of the no-URL sticker scenario is
not `"[Sticker: code=abc123]"` — the sticker description is pushed twice
(once by the code capture, once by the no-URL fallback). -/
theorem stickerEffectiveText_counterexample :
    (processIncomingMessage cEnvSticker cMsgSticker).effectiveText ≠
      "[Sticker: code=abc123]" := by
  decide

/-- C4 amended: the effective text is
`"[Sticker: code=abc123] [Sticker: abc123]"`; the sticker cache records
`abc123` for chat `10`; and the message is forwarded to the host pipeline
rather than dropped. -/
theorem stickerEffectiveText_amended :
    (processIncomingMessage cEnvSticker cMsgSticker).effectiveText =
      "[Sticker: code=abc123] [Sticker: abc123]" ∧
    Effect.rememberSticker "10" "abc123" ∈
      (processIncomingMessage cEnvSticker cMsgSticker).effects ∧
    hasHostDispatch (processIncomingMessage cEnvSticker cMsgSticker) = true := by
  refine ⟨by decide, by decide, by decide⟩

end OpenclawMax
